import Mathlib

/-!
Verification of the UltraDark Reader adaptive theming engine.

This file is a shallow embedding of the color mathematics, dark-theme
detection, recoloring strategies, contrast-optimizer worker and mode
controller of the extension, translated from the TypeScript sources:

* `src/content/algorithms/dom-walker.ts` (rgbToHsl, hslToRgb, parseRgb,
  isTransparent, invertLightness, processBatch, resetDomWalker),
* `src/content/algorithms/photon-inverter.ts` (generatePhotonInverterCSS,
  applyPhotonInverter, removePhotonInverter),
* `src/content/algorithms/chroma-semantic.ts` (palette, text colors,
  getRelativeLuminance, getContrastRatio, rgbToLCH, lchToRGB,
  getSemanticRole, applySemanticStyle, parseColor),
* `src/utils/dark-detection.ts` (rgbToLuminance, parseColor,
  getAverageBackgroundLuminance, siteDeclaresColorScheme,
  hasExplicitDarkThemeMarkers, isAlreadyDarkTheme),
* `src/content/optimizer-worker.ts` (parseColor, relLuminance,
  contrastRatio, onmessage),
* `src/content/style-template.ts` (buildCss, ensureStyleTag) and the
  content entry point (applyFilterCss, resetModeArtifacts, applyCss,
  the optimizer feedback clamp).

JavaScript floating-point arithmetic is idealised as exact rational
(`ℚ`) arithmetic, and `Math.pow(x, 2.4)` as the real power function, so
the luminance/contrast layer lives in `ℝ`.  JavaScript regular
expressions are translated into explicit character-list matchers with
the same matching behaviour on the patterns the sources use.  DOM
state (style tags, inline styles, attributes) is modelled as explicit
record state passed through the operations.
-/

namespace UltraDark

/-- JavaScript `Math.round` on rationals: round half toward positive infinity. -/
def jsRound (x : ℚ) : ℤ := ⌊x + 1/2⌋

/-- HSL triple as produced by `rgbToHsl` (h in degrees 0–360, s and l in percent). -/
structure HSL where
  h : ℚ
  s : ℚ
  l : ℚ
deriving DecidableEq, Repr

/-- Integer RGB triple as produced by `hslToRgb` (components are rounded). -/
structure RGBi where
  r : ℤ
  g : ℤ
  b : ℤ
deriving DecidableEq, Repr

/-- Natural-number RGB triple as produced by the color-string parsers. -/
structure RGBn where
  r : ℕ
  g : ℕ
  b : ℕ
deriving DecidableEq, Repr

/-- Source `rgbToHsl` from `src/content/algorithms/dom-walker.ts`: normalise to 0–1,
take max/min, and branch exactly as the source `switch (max)` does (first
matching case wins). -/
def rgbToHsl (r g b : ℚ) : HSL :=
  let r' := r / 255
  let g' := g / 255
  let b' := b / 255
  let mx := max r' (max g' b')
  let mn := min r' (min g' b')
  let l := (mx + mn) / 2
  if mx = mn then ⟨0, 0, l * 100⟩
  else
    let d := mx - mn
    let s := if l > 1/2 then d / (2 - mx - mn) else d / (mx + mn)
    let h :=
      if mx = r' then ((g' - b') / d + (if g' < b' then (6 : ℚ) else 0)) / 6
      else if mx = g' then ((b' - r') / d + 2) / 6
      else ((r' - g') / d + 4) / 6
    ⟨h * 360, s * 100, l * 100⟩

/-- The `hue2rgb` helper inside `hslToRgb` of `dom-walker.ts`; the two
wrap-around shifts are applied sequentially exactly as in the source. -/
def hue2rgb (p q t : ℚ) : ℚ :=
  let t1 := if t < 0 then t + 1 else t
  let t2 := if t1 > 1 then t1 - 1 else t1
  if t2 < 1/6 then p + (q - p) * 6 * t2
  else if t2 < 1/2 then q
  else if t2 < 2/3 then p + (q - p) * (2/3 - t2) * 6
  else p

/-- Source `hslToRgb` from `dom-walker.ts` (h in 0–360, s and l in percent). -/
def hslToRgb (h s l : ℚ) : RGBi :=
  let h' := h / 360
  let s' := s / 100
  let l' := l / 100
  if s' = 0 then
    let v := jsRound (l' * 255)
    ⟨v, v, v⟩
  else
    let q := if l' < 1/2 then l' * (1 + s') else l' + s' - l' * s'
    let p := 2 * l' - q
    ⟨jsRound (hue2rgb p q (h' + 1/3) * 255),
     jsRound (hue2rgb p q h' * 255),
     jsRound (hue2rgb p q (h' - 1/3) * 255)⟩

/-- Proof helper: `rgbToHsl` on already-normalised (0–1) channels;
`rgbToHsl r g b` is definitionally `hslOfNorm (r/255) (g/255) (b/255)`. -/
def hslOfNorm (x y z : ℚ) : HSL :=
  let mx := max x (max y z)
  let mn := min x (min y z)
  let l := (mx + mn) / 2
  if mx = mn then ⟨0, 0, l * 100⟩
  else
    let d := mx - mn
    let s := if l > 1/2 then d / (2 - mx - mn) else d / (mx + mn)
    let h :=
      if mx = x then ((y - z) / d + (if y < z then (6 : ℚ) else 0)) / 6
      else if mx = y then ((z - x) / d + 2) / 6
      else ((x - y) / d + 4) / 6
    ⟨h * 360, s * 100, l * 100⟩

/-- Source `invertLightness` from `dom-walker.ts`: convert to HSL, conditionally
invert the lightness (backgrounds when L > 50, foregrounds when L < 50),
convert back. -/
def invertLightness (r g b : ℚ) (isBackground : Bool) : RGBi :=
  let hsl := rgbToHsl r g b
  if isBackground = true ∧ 50 < hsl.l then hslToRgb hsl.h hsl.s (100 - hsl.l)
  else if isBackground = false ∧ hsl.l < 50 then hslToRgb hsl.h hsl.s (100 - hsl.l)
  else hslToRgb hsl.h hsl.s hsl.l

/-- Render an integer RGB triple as the CSS string the sources build with
template literals, e.g. `rgb(18, 52, 86)`. -/
def rgbStringI (c : RGBi) : String :=
  let rv := c.r
  let gv := c.g
  let bv := c.b
  s!"rgb({rv}, {gv}, {bv})"

/-! ### Character-level translations of the JavaScript regular expressions -/

/-- Characters matched by the regex class `\s` (ASCII part, which is all the
computed-style strings can contain). -/
def isWsChar (c : Char) : Bool :=
  c == ' ' || c == '\t' || c == '\n' || c == '\r' || c == '\x0b' || c == '\x0c'

/-- Consume `\s*`. -/
def skipWs : List Char → List Char
  | c :: cs => if isWsChar c then skipWs cs else c :: cs
  | [] => []

/-- Split one-or-more leading decimal digits (`\d+`) from the rest. -/
def digitsSplit : List Char → List Char × List Char
  | [] => ([], [])
  | c :: cs =>
    if c.isDigit then
      let (ds, rest) := digitsSplit cs
      (c :: ds, rest)
    else ([], c :: cs)

/-- Source `parseInt(str, 10)` on a digit string. -/
def digitsVal (ds : List Char) : ℕ :=
  ds.foldl (fun a c => a * 10 + (c.toNat - 48)) 0

/-- Match `\d+` and return its decimal value with the rest of the input. -/
def takeNum (cs : List Char) : Option (ℕ × List Char) :=
  match digitsSplit cs with
  | ([], _) => none
  | (ds, rest) => some (digitsVal ds, rest)

/-- Match `rgba?\s*\(\s*(\d+)\s*,\s*(\d+)\s*,\s*(\d+)` anchored at the head of
the input (the case-sensitive pattern shared by `dark-detection.ts`,
`dom-walker.ts` and `chroma-semantic.ts`). -/
def matchRgbAt (cs : List Char) : Option RGBn :=
  match cs with
  | 'r' :: 'g' :: 'b' :: rest =>
    let rest1 := match rest with
      | 'a' :: t => t
      | _ => rest
    match skipWs rest1 with
    | '(' :: r2 =>
      match takeNum (skipWs r2) with
      | some (d1, r3) =>
        match skipWs r3 with
        | ',' :: r4 =>
          match takeNum (skipWs r4) with
          | some (d2, r5) =>
            match skipWs r5 with
            | ',' :: r6 =>
              match takeNum (skipWs r6) with
              | some (d3, _) => some ⟨d1, d2, d3⟩
              | none => none
            | _ => none
          | none => none
        | _ => none
      | none => none
    | _ => none
  | _ => none

/-- Source `String.prototype.match` searches at every position; first match wins. -/
def scanRgb : List Char → Option RGBn
  | [] => none
  | c :: cs =>
    match matchRgbAt (c :: cs) with
    | some v => some v
    | none => scanRgb cs

/-- Value of one character of the regex class `[a-f\d]` with the `i` flag. -/
def hexVal (c : Char) : Option ℕ :=
  if c.isDigit then some (c.toNat - 48)
  else
    let lc := c.toLower
    if 'a' ≤ lc && lc ≤ 'f' then some (lc.toNat - 87) else none

/-- Match `([a-f\d]{2})` (one hex byte) at the head of the input. -/
def hexByte : List Char → Option (ℕ × List Char)
  | c1 :: c2 :: rest =>
    match hexVal c1, hexVal c2 with
    | some h1, some h2 => some (h1 * 16 + h2, rest)
    | _, _ => none
  | _ => none

/-- Match `/^#?([a-f\d]{2})([a-f\d]{2})([a-f\d]{2})$/i`: whole-string hex
color with optional leading `#`. -/
def matchHexFull (cs : List Char) : Option RGBn :=
  let cs1 := match cs with
    | '#' :: t => t
    | _ => cs
  match hexByte cs1 with
  | some (v1, r1) =>
    match hexByte r1 with
    | some (v2, r2) =>
      match hexByte r2 with
      | some (v3, r3) => if r3 = [] then some ⟨v1, v2, v3⟩ else none
      | none => none
    | none => none
  | none => none

/-- Match `rgba?\((\d+),\s*(\d+),\s*(\d+)` with the `i` flag, anchored at the
head of the input (the worker's pattern: no whitespace before `(` or before
the commas). -/
def matchRgbWorkerAt (cs : List Char) : Option RGBn :=
  match cs with
  | c1 :: c2 :: c3 :: rest =>
    if c1.toLower == 'r' && c2.toLower == 'g' && c3.toLower == 'b' then
      let rest1 := match rest with
        | a :: t => if a.toLower == 'a' then t else a :: t
        | [] => []
      match rest1 with
      | '(' :: r2 =>
        match takeNum r2 with
        | some (d1, r3) =>
          match r3 with
          | ',' :: r4 =>
            match takeNum (skipWs r4) with
            | some (d2, r5) =>
              match r5 with
              | ',' :: r6 =>
                match takeNum (skipWs r6) with
                | some (d3, _) => some ⟨d1, d2, d3⟩
                | none => none
              | _ => none
            | none => none
          | _ => none
        | none => none
      | _ => none
    else none
  | _ => none

/-- Search version of `matchRgbWorkerAt`. -/
def scanRgbWorker : List Char → Option RGBn
  | [] => none
  | c :: cs =>
    match matchRgbWorkerAt (c :: cs) with
    | some v => some v
    | none => scanRgbWorker cs

/-- Source `parseColor` from `chroma-semantic.ts`: `rgb(a)` pattern, then hex. -/
def chromaParseColor (s : String) : Option RGBn :=
  match scanRgb s.toList with
  | some v => some v
  | none => matchHexFull s.toList

/-- Source `parseColor` from `dark-detection.ts`.  The named-color fallback draws a
canvas and reads back the normalised `fillStyle`; that environment step is
modelled by the `canvasNorm` function (`none` models a `null` 2d context).
The source recurses on the normalised string when it differs from the input;
the recursion is modelled with an explicit depth (a browser's normalised
fill style is itself `rgb()`/hex-parseable, so depth 2 covers it). -/
def parseColorFuel (canvasNorm : String → Option String) : ℕ → String → Option RGBn
  | 0, _ => none
  | fuel + 1, s =>
    match scanRgb s.toList with
    | some v => some v
    | none =>
      match matchHexFull s.toList with
      | some v => some v
      | none =>
        match canvasNorm s with
        | some computed => if computed ≠ s then parseColorFuel canvasNorm fuel computed else none
        | none => none

/-- Source `parseColor` of `dark-detection.ts` at the modelled recursion depth. -/
def parseColor (canvasNorm : String → Option String) (s : String) : Option RGBn :=
  parseColorFuel canvasNorm 2 s

/-- Source `parseColor` from `optimizer-worker.ts`: normalise through the offscreen
canvas (environment function; `none` models a `null` context) and match the
worker's `rgba?` pattern on the normalised string. -/
def workerParseColor (canvasNorm : String → Option String) (s : String) : Option RGBn :=
  match canvasNorm s with
  | some v => scanRgbWorker v.toList
  | none => none

/-! ### Case-insensitive substring tests for the marker regexes -/

/-- Prefix test on character lists. -/
def subAt : List Char → List Char → Bool
  | [], _ => true
  | _ :: _, [] => false
  | p :: ps, c :: cs => p == c && subAt ps cs

/-- Substring occurrence test on character lists. -/
def hasSubList (pat : List Char) : List Char → Bool
  | [] => subAt pat []
  | c :: cs => subAt pat (c :: cs) || hasSubList pat cs

/-- Case-insensitive substring test (`/pat/i.test(s)` for a literal `pat`). -/
def containsCI (s pat : String) : Bool :=
  hasSubList (pat.toList.map Char.toLower) (s.toList.map Char.toLower)

/-- Case-sensitive substring test. -/
def hasSubstr (s pat : String) : Bool :=
  hasSubList pat.toList s.toList

/-- Source `/dark|night|black|theme-dark/i.test(s)` from `hasExplicitDarkThemeMarkers`. -/
def darkClassTest (s : String) : Bool :=
  containsCI s "dark" || containsCI s "night" || containsCI s "black" || containsCI s "theme-dark"

/-- Source `/dark|night|black/i.test(s)` used on the `data-theme`/`theme` attributes. -/
def darkAttrTest (s : String) : Bool :=
  containsCI s "dark" || containsCI s "night" || containsCI s "black"

/-- Source `/dark/i.test(s)` used on the computed `color-scheme`. -/
def darkSchemeTest (s : String) : Bool := containsCI s "dark"

/-! ### WCAG luminance and contrast

The sRGB linearisation uses `Math.pow(x, 2.4)`, idealised as the real power
function, so this layer lives in `ℝ`.  The branch condition compares the
(exact, rational) normalised channel against the standard 0.03928 cutoff.
The same formula appears verbatim in `dark-detection.ts` (`rgbToLuminance`),
`chroma-semantic.ts` (`getRelativeLuminance`) and `optimizer-worker.ts`
(`relLuminance`); it is defined once here. -/

/-- Linearise one sRGB channel (input in 0–255). -/
noncomputable def srgbLin (c : ℚ) : ℝ :=
  if c / 255 ≤ 3928/100000 then ((c : ℝ) / 255) / 12.92
  else (((c : ℝ) / 255 + 0.055) / 1.055) ^ (2.4 : ℝ)

/-- WCAG relative luminance of an RGB triple (components in 0–255). -/
noncomputable def relLuminance (r g b : ℚ) : ℝ :=
  0.2126 * srgbLin r + 0.7152 * srgbLin g + 0.0722 * srgbLin b

/-- Relative luminance of a parsed color. -/
noncomputable def lumOf (c : RGBn) : ℝ := relLuminance c.r c.g c.b

/-- Source `getContrastRatio` from `chroma-semantic.ts` (also the final formula of
the worker's `contrastRatio`): (lighter + 0.05) / (darker + 0.05). -/
noncomputable def getContrastRatio (l1 l2 : ℝ) : ℝ :=
  (max l1 l2 + 0.05) / (min l1 l2 + 0.05)

/-- Source `contrastRatio` from `optimizer-worker.ts`: luminances of the two parsed
colors fed through the WCAG ratio. -/
noncomputable def workerContrast (fg bg : RGBn) : ℝ :=
  getContrastRatio (lumOf fg) (lumOf bg)

/-! ### Chroma-Semantic engine (`src/content/algorithms/chroma-semantic.ts`) -/

/-- Depth-indexed dark-gray background palette. -/
def DARK_GRAY_PALETTE : List String :=
  ["#121212", "#1a1a1a", "#222222", "#2a2a2a", "#2c2c2c"]

/-- Source `TEXT_COLORS.body`. -/
def textColorBody : String := "#E0E0E0"

/-- Source `TEXT_COLORS.heading`. -/
def textColorHeading : String := "#F5F5F5"

/-- Source `TEXT_COLORS.link`. -/
def textColorLink : String := "#6CB6FF"

/-- Source `Math.min(Math.floor(depth / 2), DARK_GRAY_PALETTE.length - 1)`. -/
def paletteIndexOf (depth : ℕ) : ℕ :=
  min (depth / 2) (DARK_GRAY_PALETTE.length - 1)

/-- The semantic background chosen for a nesting depth
(`DARK_GRAY_PALETTE[paletteIndex]`; the index is always in range, the
default of `getD` is never used). -/
def semanticBgHex (depth : ℕ) : String :=
  DARK_GRAY_PALETTE.getD (paletteIndexOf depth) ""

/-- LCH triple as produced by `rgbToLCH` (l, c in percent; h in degrees). -/
structure LCH where
  l : ℚ
  c : ℚ
  h : ℚ
deriving DecidableEq, Repr

/-- Source `rgbToLCH` from `chroma-semantic.ts` (HSL-based approximation). -/
def rgbToLCH (r g b : ℚ) : LCH :=
  let r' := r / 255
  let g' := g / 255
  let b' := b / 255
  let mx := max r' (max g' b')
  let mn := min r' (min g' b')
  let l := (mx + mn) / 2
  if mx = mn then ⟨l * 100, 0, 0⟩
  else
    let c := mx - mn
    let h :=
      if mx = r' then ((g' - b') / c + (if g' < b' then (6 : ℚ) else 0)) * 60
      else if mx = g' then ((b' - r') / c + 2) * 60
      else ((r' - g') / c + 4) * 60
    ⟨l * 100, c * 100, h⟩

/-- JavaScript truncation toward zero. -/
def truncQ (q : ℚ) : ℤ := if 0 ≤ q then ⌊q⌋ else ⌈q⌉

/-- JavaScript `%` (remainder with the dividend's sign). -/
def jsModQ (a b : ℚ) : ℚ := a - b * (truncQ (a / b) : ℤ)

/-- JavaScript `Math.round` on reals. -/
noncomputable def jsRoundR (x : ℝ) : ℤ := ⌊x + 1/2⌋

/-- Source `lchToRGB` from `chroma-semantic.ts` (simplified approximation via a
cos/sin projection, clamped to 0–1 and scaled to 0–255). -/
noncomputable def lchToRGB (l c h : ℚ) : RGBi :=
  let l' := l / 100
  let c' := c / 100
  let h' := jsModQ h 360
  let hRad : ℝ := (h' : ℝ) * Real.pi / 180
  let a := Real.cos hRad * (c' : ℝ)
  let b := Real.sin hRad * (c' : ℝ)
  let x := (l' : ℝ) + a
  let y := (l' : ℝ)
  let z := (l' : ℝ) - b
  ⟨jsRoundR (max 0 (min 1 x) * 255),
   jsRoundR (max 0 (min 1 y) * 255),
   jsRoundR (max 0 (min 1 z) * 255)⟩

/-- The foreground color `applySemanticStyle` writes before its contrast
check: headings and links get their role color; any element whose computed
color is truthy gets the body color; otherwise the element's previous
inline color is left in place. -/
def assignedStyleColor (role computedColor priorInline : String) : String :=
  if role = "heading" then textColorHeading
  else if role = "link" then textColorLink
  else if computedColor ≠ "" then textColorBody
  else priorInline

open Classical in
/-- The final `element.style.color` produced by `applySemanticStyle`:
parse the semantic background and the (just assigned, `|| TEXT_COLORS.body`)
foreground, and if the WCAG contrast ratio is below 4.5 replace the
foreground by the LCH-lightened color (`l := min 95 (l + 20)`). -/
noncomputable def applySemanticStyleColor
    (role computedColor priorInline : String) (depth : ℕ) : String :=
  let fg0 := assignedStyleColor role computedColor priorInline
  match chromaParseColor (semanticBgHex depth),
        chromaParseColor (if fg0 = "" then textColorBody else fg0) with
  | some bgRgb, some fgRgb =>
    if getContrastRatio (lumOf bgRgb) (lumOf fgRgb) < 4.5 then
      let lch := rgbToLCH fgRgb.r fgRgb.g fgRgb.b
      rgbStringI (lchToRGB (min 95 (lch.l + 20)) lch.c lch.h)
    else fg0
  | _, _ => fg0

/-! ### Dark-theme detection (`src/utils/dark-detection.ts`)

The document is modelled by a record of the computed-style facts the
detector reads: presence of `<body>`/`<html>`, their computed background
colors and class names, `data-theme`/`theme` attribute values, computed
`color-scheme` values, the `querySelector` results for the seven fixed
container selectors (in source order; `none` models a selector with no
match), the `matchMedia` environment, and the canvas color-normalisation
function used by `parseColor`'s named-color fallback. -/

structure DetectDoc where
  hasBody : Bool
  hasHtml : Bool
  bodyBg : String
  htmlBg : String
  bodyClassName : String
  htmlClassName : String
  htmlDataTheme : Option String
  htmlThemeAttr : Option String
  bodyDataTheme : Option String
  bodyThemeAttr : Option String
  htmlColorScheme : String
  bodyColorScheme : String
  selectorBgs : List (Option String)
  hasMatchMedia : Bool
  prefersDark : Bool
  canvasNorm : String → Option String

/-- JavaScript `a || b` on `getAttribute` results, where both `null` and the
empty string are falsy. -/
def jsStrOr (a b : Option String) : Option String :=
  match a with
  | some s => if s = "" then b else some s
  | none => b

/-- Truthiness test (`if (x && ...)`) for an attribute lookup result. -/
def attrTruthy (a : Option String) : Bool :=
  match a with
  | some s => s ≠ ""
  | none => false

/-- Value of a truthy attribute lookup. -/
def attrVal (a : Option String) : String :=
  match a with
  | some s => s
  | none => ""

/-- Source `hasExplicitDarkThemeMarkers`: dark-matching class names on `<html>` or
`<body>`, dark-matching `data-theme`/`theme` attributes, or a computed
`color-scheme` containing "dark". -/
def hasExplicitDarkThemeMarkers (d : DetectDoc) : Bool :=
  if !d.hasHtml || !d.hasBody then false
  else
    let htmlTheme := jsStrOr d.htmlDataTheme d.htmlThemeAttr
    let bodyTheme := jsStrOr d.bodyDataTheme d.bodyThemeAttr
    darkClassTest d.htmlClassName ||
    darkClassTest d.bodyClassName ||
    (attrTruthy htmlTheme && darkAttrTest (attrVal htmlTheme)) ||
    (attrTruthy bodyTheme && darkAttrTest (attrVal bodyTheme)) ||
    (d.htmlColorScheme ≠ "" && darkSchemeTest d.htmlColorScheme) ||
    (d.bodyColorScheme ≠ "" && darkSchemeTest d.bodyColorScheme)

/-- Source `siteDeclaresColorScheme`: `false` without `window.matchMedia`, otherwise
whether `(prefers-color-scheme: dark)` matches. -/
def siteDeclaresColorScheme (d : DetectDoc) : Bool :=
  if !d.hasMatchMedia then false else d.prefersDark

/-- The successfully parsed sample colors of `getAverageBackgroundLuminance`,
in source order: body background, html background, then the backgrounds of
the elements found for the seven fixed container selectors; parse failures
are skipped. -/
def sampleColors (d : DetectDoc) : List RGBn :=
  (parseColor d.canvasNorm d.bodyBg).toList ++
  (parseColor d.canvasNorm d.htmlBg).toList ++
  d.selectorBgs.filterMap (fun o => o.bind (parseColor d.canvasNorm))

/-- Source `getAverageBackgroundLuminance`: 1 (white) when `<body>` or `<html>` is
missing or no sample parses, otherwise the arithmetic mean of the sampled
luminances. -/
noncomputable def getAverageBackgroundLuminance (d : DetectDoc) : ℝ :=
  if !d.hasBody || !d.hasHtml then 1
  else
    let samples := (sampleColors d).map lumOf
    if samples ≠ [] then samples.sum / samples.length else 1

/-- Source `DARK_THRESHOLD` in `isAlreadyDarkTheme`. -/
def DARK_THRESHOLD : ℚ := 3/10

/-- Source `isAlreadyDarkTheme` as a predicate on the modelled document: the source
returns `true` exactly when explicit markers are found, or the average
sampled luminance is below the 0.3 threshold, or the site declares a color
scheme with the prefers-dark media condition matching. -/
def isAlreadyDarkTheme (d : DetectDoc) : Prop :=
  hasExplicitDarkThemeMarkers d = true ∨
  getAverageBackgroundLuminance d < (DARK_THRESHOLD : ℝ) ∨
  siteDeclaresColorScheme d = true

/-! ### Contrast optimizer worker (`src/content/optimizer-worker.ts`) -/

/-- One `(fg, bg)` sample pair shipped to the worker. -/
structure OptimizerSample where
  fg : String
  bg : String

/-- The worker's reply payload. -/
structure OptimizerResult where
  suggestedContrast : ℤ
deriving DecidableEq, Repr

/-- The per-pair contrast ratios the worker computes: pairs whose colors both
parse, in order. -/
noncomputable def analyzeRatios
    (canvasNorm : String → Option String) (samples : List OptimizerSample) : List ℝ :=
  samples.filterMap fun s =>
    match workerParseColor canvasNorm s.fg, workerParseColor canvasNorm s.bg with
    | some fg, some bg => some (workerContrast fg bg)
    | _, _ => none

open Classical in
/-- The median the worker takes: sort ascending (`ratios.sort((a,b) => a-b)`)
and read index `Math.floor(length / 2)`. -/
noncomputable def medianRatio (ratios : List ℝ) : ℝ :=
  (ratios.insertionSort (· ≤ ·)).getD (ratios.length / 2) 0

open Classical in
/-- The worker's `onmessage` handler as a function from the message and the
canvas environment to the posted reply (`none` models the early `return`s
that post nothing).  In the `suggested` mapping, `null` is modelled by
`Option`, and the posted payload applies the source's `suggested ?? 110`
default. -/
noncomputable def workerOnMessage
    (canvasNorm : String → Option String) (type : String)
    (samples : List OptimizerSample) : Option OptimizerResult :=
  if type ≠ "analyze" ∨ samples = [] then none
  else
    let ratios := analyzeRatios canvasNorm samples
    if ratios = [] then none
    else
      let median := medianRatio ratios
      let suggested : Option ℤ :=
        if median < 4.5 then some (jsRoundR (110 + ((4.5 - median) / 0.5) * 10))
        else if median > 9 then some 100
        else none
      some ⟨suggested.getD 110⟩

/-- The feedback clamp applied by the content script when a suggestion comes
back: `Math.min(200, Math.max(50, suggestedContrast))`. -/
def clampContrast (x : ℤ) : ℤ := min 200 (max 50 x)

/-! ### Settings and the mode controller

`Settings` carries the fields of `src/types/settings.d.ts` that the theming
engine reads (the per-site override table, exclusion regex list and schedule
are consumed before the engine runs and no claim mentions them, so they are
not modelled).  The live document is modelled by `PageState`: the injected
style tags in order, the two attributes the engine writes, the module-level
`currentMode`, and per-element computed/inline styles together with the two
strategies' bookkeeping (processed-element sets, mutation-observer flags). -/

/-- The closed strategy identifier type (`Mode` in `settings.d.ts`). -/
inductive Mode where
  | photonInverter
  | domWalker
  | chromaSemantic
deriving DecidableEq, Repr

/-- The engine-relevant part of the settings record. -/
structure Settings where
  enabled : Bool
  mode : Mode
  amoled : Bool
  brightness : ℤ
  contrast : ℤ
  sepia : ℤ
  grayscale : ℤ
  blueShift : ℤ
  optimizerEnabled : Bool
  detectDarkSites : Bool
deriving DecidableEq, Repr

/-- Source `DEFAULTS` from `src/utils/defaults.ts` (engine-relevant fields). -/
def DEFAULTS : Settings :=
  { enabled := true
    mode := .photonInverter
    amoled := false
    brightness := 90
    contrast := 110
    sepia := 0
    grayscale := 0
    blueShift := 0
    optimizerEnabled := true
    detectDarkSites := true }

/-- One element of the live document as the strategies see it: its computed
styles, the result of the `findOpaqueParentBg` ancestor walk, its current
inline styles, and the ARIA role / tag name / DOM depth the Chroma-Semantic
engine classifies by. -/
structure Elem where
  id : ℕ
  computedBg : String
  computedFg : String
  computedBorder : String
  opaqueParentBg : Option String
  inlineBg : String
  inlineFg : String
  inlineBorder : String
  ariaRole : Option String
  tagName : String
  depth : ℕ

/-- The document-level state the engine mutates. -/
structure PageState where
  hasHead : Bool
  tags : List (String × String)
  dataUdrMode : Option String
  udrApplied : Bool
  currentMode : Option Mode
  elems : List Elem
  walkerProcessed : List ℕ
  walkerObserver : Bool
  chromaProcessed : List ℕ
  chromaObserver : Bool

/-- Source `document.getElementById` over the modelled style tags: the content of
the first style tag carrying the id, if any. -/
def findTag (id : String) : List (String × String) → Option String
  | [] => none
  | t :: rest => if t.1 == id then some t.2 else findTag id rest

/-- Remove the style tag with the given id (no-op when absent). -/
def removeTagById (id : String) (tags : List (String × String)) : List (String × String) :=
  tags.filter (fun t => !(t.1 == id))

/-- Ensure a style tag with the given id exists and set its text content
(create-and-append when missing, update in place when present). -/
def setTagContent (id content : String) (tags : List (String × String)) :
    List (String × String) :=
  if tags.any (fun t => t.1 == id) then
    tags.map (fun t => if t.1 == id then (id, content) else t)
  else tags ++ [(id, content)]

/-- The marker id of the Photon Inverter's style block. -/
def DARK_THEME_SNIPPET_ID : String := "dark-theme-snippet"

/-- Source `generatePhotonInverterCSS` from `src/content/algorithms/photon-inverter.ts`:
the fixed bookmarklet-style CSS (full-page `invert(100%)` on `:root` with an
off-white `#fefefe` base background and raster re-inversion); the settings
argument is deliberately unused ("settings like brightness/contrast are not
used in this simplified version"). -/
def generatePhotonInverterCSS (_settings : Settings) : String :=
  ":root \x7b\n  background-color: #fefefe;\n  filter: invert(100%);\n\x7d\n\n* \x7b\n  background-color: inherit;\n\x7d\n\nimg:not([src*=\".svg\"]), video \x7b\n  filter: invert(100%);\n\x7d"

/-- Source `applyPhotonInverter`: ensure the marked style tag exists (creating it
requires a `<head>`; without one the function returns without applying),
set its content, and set the `data-udr-mode` attribute. -/
def applyPhotonInverter (s : Settings) (st : PageState) : PageState :=
  if st.tags.any (fun t => t.1 == DARK_THEME_SNIPPET_ID) then
    { st with tags := setTagContent DARK_THEME_SNIPPET_ID (generatePhotonInverterCSS s) st.tags
              dataUdrMode := some "photon-inverter" }
  else if st.hasHead then
    { st with tags := st.tags ++ [(DARK_THEME_SNIPPET_ID, generatePhotonInverterCSS s)]
              dataUdrMode := some "photon-inverter" }
  else st

/-- Source `removePhotonInverter`: delete the marked style tag if present. -/
def removePhotonInverter (st : PageState) : PageState :=
  { st with tags := removeTagById DARK_THEME_SNIPPET_ID st.tags }

/-- Source `resetDomWalker`: clear the inline styles of every processed element,
empty the processed set, disconnect the mutation observer. -/
def resetDomWalker (st : PageState) : PageState :=
  { st with
      elems := st.elems.map fun e =>
        if e.id ∈ st.walkerProcessed then
          { e with inlineBg := "", inlineFg := "", inlineBorder := "" }
        else e
      walkerProcessed := []
      walkerObserver := false }

/-- Modelled from the spec: `resetChromaSemantic` is imported by the content
entry point but its definition is missing from the repository snapshot
(`chroma-semantic.ts` only exports `applyChromaSemantic`).  Spec §4.5:
"`remove()` reverses all inline styles and detaches the watcher", mirroring
`resetDomWalker`. -/
def resetChromaSemantic (st : PageState) : PageState :=
  { st with
      elems := st.elems.map fun e =>
        if e.id ∈ st.chromaProcessed then
          { e with inlineBg := "", inlineFg := "" }
        else e
      chromaProcessed := []
      chromaObserver := false }

/-- A baseline detection document: body and html present, empty computed
styles, no markers, no matching media preference, no canvas context. -/
def baseDoc : DetectDoc :=
  { hasBody := true
    hasHtml := true
    bodyBg := ""
    htmlBg := ""
    bodyClassName := ""
    htmlClassName := ""
    htmlDataTheme := none
    htmlThemeAttr := none
    bodyDataTheme := none
    bodyThemeAttr := none
    htmlColorScheme := ""
    bodyColorScheme := ""
    selectorBgs := []
    hasMatchMedia := true
    prefersDark := false
    canvasNorm := fun _ => none }

/-- A document whose body and html backgrounds are the mid gray
`rgb(137, 137, 137)` (luminance strictly between 0.2 and 0.3) with no
explicit dark markers. -/
def grayDoc : DetectDoc :=
  { baseDoc with bodyBg := "rgb(137, 137, 137)", htmlBg := "rgb(137, 137, 137)" }

/-- A document with black body and html backgrounds and no markers. -/
def blackDoc : DetectDoc :=
  { baseDoc with bodyBg := "rgb(0, 0, 0)", htmlBg := "rgb(0, 0, 0)" }

/-- A document with a `dark-mode` class on the root element but white
(light) sampled backgrounds. -/
def darkClassDoc : DetectDoc :=
  { baseDoc with
      htmlClassName := "dark-mode"
      bodyBg := "rgb(255, 255, 255)"
      htmlBg := "rgb(255, 255, 255)" }

/-- A document whose body element is absent. -/
def noBodyDoc : DetectDoc := { baseDoc with hasBody := false }

/-- Canvas normalisation environment that returns the string unchanged (a
browser's normalised `fillStyle` for an already-normalised `rgb()` string
is the string itself). -/
def canvasId : String → Option String := fun s => some s

/-- A single optimizer sample: white text over the mid gray
`rgb(110, 110, 110)`, whose contrast ratio lies strictly between 4.5 and 9. -/
def midSample : OptimizerSample := ⟨"rgb(255, 255, 255)", "rgb(110, 110, 110)"⟩

/-- A fresh page: head present, no style tags, no attributes, no elements,
no strategy active. -/
def emptyPage : PageState :=
  { hasHead := true
    tags := []
    dataUdrMode := none
    udrApplied := false
    currentMode := none
    elems := []
    walkerProcessed := []
    walkerObserver := false
    chromaProcessed := []
    chromaObserver := false }

/-! ### Strategy artifacts and the at-most-one-strategy invariant -/

end UltraDark

namespace UltraDark

/-! ## Properties of the color round-trip -/

theorem hue2rgb_eval_up {p q t : ℚ} (h0 : 0 ≤ t) (h1 : t ≤ 1/6) :
    hue2rgb p q t = p + (q - p) * 6 * t := by
  have hn : ¬ t < 0 := not_lt.mpr h0
  have hg : ¬ t > 1 := by rw [not_lt]; linarith
  simp only [hue2rgb, if_neg hn, if_neg hg]
  by_cases h6 : t < 1/6
  · rw [if_pos h6]
  · have ht : t = 1/6 := le_antisymm h1 (not_lt.mp h6)
    subst ht
    rw [if_neg h6, if_pos (by norm_num)]
    ring

theorem hue2rgb_eval_q {p q t : ℚ} (h1 : 1/6 ≤ t) (h2 : t ≤ 1/2) :
    hue2rgb p q t = q := by
  have hn : ¬ t < 0 := by rw [not_lt]; linarith
  have hg : ¬ t > 1 := by rw [not_lt]; linarith
  have h6 : ¬ t < 1/6 := not_lt.mpr h1
  simp only [hue2rgb, if_neg hn, if_neg hg, if_neg h6]
  by_cases hh : t < 1/2
  · rw [if_pos hh]
  · have ht : t = 1/2 := le_antisymm h2 (not_lt.mp hh)
    subst ht
    rw [if_neg hh, if_pos (by norm_num)]
    ring

theorem hue2rgb_eval_down {p q t : ℚ} (h1 : 1/2 ≤ t) (h2 : t ≤ 2/3) :
    hue2rgb p q t = p + (q - p) * (2/3 - t) * 6 := by
  have hn : ¬ t < 0 := by rw [not_lt]; linarith
  have hg : ¬ t > 1 := by rw [not_lt]; linarith
  have h6 : ¬ t < 1/6 := by rw [not_lt]; linarith
  simp only [hue2rgb, if_neg hn, if_neg hg, if_neg h6]
  by_cases hh : t < 1/2
  · exact absurd hh (not_lt.mpr h1)
  · rw [if_neg hh]
    by_cases h23 : t < 2/3
    · rw [if_pos h23]
    · have ht : t = 2/3 := le_antisymm h2 (not_lt.mp h23)
      subst ht
      rw [if_neg h23]
      ring

theorem hue2rgb_eval_p {p q t : ℚ} (h1 : 2/3 ≤ t) (h2 : t ≤ 1) :
    hue2rgb p q t = p := by
  have hn : ¬ t < 0 := by rw [not_lt]; linarith
  have hg : ¬ t > 1 := not_lt.mpr h2
  have h6 : ¬ t < 1/6 := by rw [not_lt]; linarith
  have hh : ¬ t < 1/2 := by rw [not_lt]; linarith
  have h23 : ¬ t < 2/3 := not_lt.mpr h1
  simp only [hue2rgb, if_neg hn, if_neg hg, if_neg h6, if_neg hh, if_neg h23]

theorem hue2rgb_wrap_neg {p q t : ℚ} (hn : t < 0) (hge : -1 ≤ t) :
    hue2rgb p q t = hue2rgb p q (t + 1) := by
  have h1 : ¬ t + 1 > 1 := by rw [not_lt]; linarith
  have h2 : ¬ t + 1 < 0 := by rw [not_lt]; linarith
  simp only [hue2rgb, if_pos hn, if_neg h1, if_neg h2]

theorem hue2rgb_wrap_pos {p q t : ℚ} (hgt : 1 < t) (hle : t ≤ 2) :
    hue2rgb p q t = hue2rgb p q (t - 1) := by
  have h0 : ¬ t < 0 := by rw [not_lt]; linarith
  have h1 : ¬ t - 1 < 0 := by rw [not_lt]; linarith
  have h2 : ¬ t - 1 > 1 := by rw [not_lt]; linarith
  simp only [hue2rgb, if_neg h0, if_pos hgt, if_neg h1, if_neg h2]

set_option maxHeartbeats 2000000 in
theorem roundtrip_norm (x y z : ℚ)
    (hx0 : 0 ≤ x) (hx1 : x ≤ 1) (hy0 : 0 ≤ y) (hy1 : y ≤ 1)
    (hz0 : 0 ≤ z) (hz1 : z ≤ 1) :
    hslToRgb (hslOfNorm x y z).h (hslOfNorm x y z).s (hslOfNorm x y z).l =
      ⟨jsRound (x * 255), jsRound (y * 255), jsRound (z * 255)⟩ := by
  simp only [hslOfNorm]
  set mx := max x (max y z) with hmxdef
  set mn := min x (min y z) with hmndef
  have hxmx : x ≤ mx := by rw [hmxdef]; exact le_max_left _ _
  have hymx : y ≤ mx := by rw [hmxdef]; exact le_trans (le_max_left _ _) (le_max_right _ _)
  have hzmx : z ≤ mx := by rw [hmxdef]; exact le_trans (le_max_right _ _) (le_max_right _ _)
  have hmnx : mn ≤ x := by rw [hmndef]; exact min_le_left _ _
  have hmny : mn ≤ y := by rw [hmndef]; exact le_trans (min_le_right _ _) (min_le_left _ _)
  have hmnz : mn ≤ z := by rw [hmndef]; exact le_trans (min_le_right _ _) (min_le_right _ _)
  have hmx1 : mx ≤ 1 := by rw [hmxdef]; exact max_le hx1 (max_le hy1 hz1)
  have hmn0 : 0 ≤ mn := by rw [hmndef]; exact le_min hx0 (le_min hy0 hz0)
  by_cases hgray : mx = mn
  · have hxeq : x = mn := le_antisymm (hgray ▸ hxmx) hmnx
    have hyeq : y = mn := le_antisymm (hgray ▸ hymx) hmny
    have hzeq : z = mn := le_antisymm (hgray ▸ hzmx) hmnz
    rw [if_pos hgray]
    dsimp only
    simp only [hslToRgb]
    rw [if_pos (by norm_num : (0:ℚ)/100 = 0)]
    rw [show (mx + mn) / 2 * 100 / 100 = mn from by rw [hgray]; ring]
    rw [hxeq, hyeq, hzeq]
  · rw [if_neg hgray]
    dsimp only
    have hlt : mn < mx := lt_of_le_of_ne (le_trans hmnx hxmx) (fun h => hgray h.symm)
    have hdpos : (0:ℚ) < mx - mn := sub_pos.mpr hlt
    have hmxpos : (0:ℚ) < mx := lt_of_le_of_lt hmn0 hlt
    have hsumpos : (0:ℚ) < mx + mn := by linarith
    have hsum2 : mx + mn < 2 := by linarith
    simp only [hslToRgb]
    rw [mul_div_cancel_right₀ _ (by norm_num : (100:ℚ) ≠ 0),
        mul_div_cancel_right₀ _ (by norm_num : (100:ℚ) ≠ 0),
        mul_div_cancel_right₀ _ (by norm_num : (360:ℚ) ≠ 0)]
    set s0 := if (mx + mn) / 2 > 1/2 then (mx - mn) / (2 - mx - mn) else (mx - mn) / (mx + mn)
      with hs0def
    have hs0pos : 0 < s0 := by
      rw [hs0def]
      by_cases hhalf : (mx + mn) / 2 > 1/2
      · rw [if_pos hhalf]
        exact div_pos hdpos (by linarith)
      · rw [if_neg hhalf]
        exact div_pos hdpos hsumpos
    rw [if_neg (ne_of_gt hs0pos)]
    set q0 := if (mx + mn) / 2 < 1/2 then (mx + mn) / 2 * (1 + s0)
      else (mx + mn) / 2 + s0 - (mx + mn) / 2 * s0 with hq0def
    have hq : q0 = mx := by
      rw [hq0def, hs0def]
      rcases lt_trichotomy ((mx + mn) / 2) (1/2) with hc | hc | hc
      · rw [if_pos hc, if_neg (by rw [gt_iff_lt, not_lt]; linarith)]
        have key : (mx - mn) / (mx + mn) * (mx + mn) = mx - mn :=
          div_mul_cancel₀ _ (ne_of_gt hsumpos)
        linear_combination (1/2 : ℚ) * key
      · have hsum1 : mx + mn = 1 := by linarith
        rw [if_neg (by rw [not_lt]; linarith), if_neg (by rw [gt_iff_lt, not_lt]; linarith)]
        rw [hsum1]
        simp only [div_one]
        linarith
      · rw [if_neg (by rw [not_lt]; linarith), if_pos (by rw [gt_iff_lt]; linarith)]
        have key : (mx - mn) / (2 - mx - mn) * (2 - mx - mn) = mx - mn :=
          div_mul_cancel₀ _ (ne_of_gt (by linarith : (0:ℚ) < 2 - mx - mn))
        linear_combination (1/2 : ℚ) * key
    rw [hq]
    rw [show 2 * ((mx + mn) / 2) - mx = mn from by ring]
    by_cases hmxx : mx = x
    · rw [if_pos hmxx]
      by_cases hyz : y < z
      · rw [if_pos hyz]
        have hminyz : min y z = y := min_eq_left (le_of_lt hyz)
        have hyx : y ≤ x := by rw [← hmxx]; exact hymx
        have hmny' : mn = y := by
          rw [hmndef, hminyz]
          exact min_eq_right hyx
        set E := (y - z) / (mx - mn) with hEdef
        have hed : E * (mx - mn) = y - z := div_mul_cancel₀ _ (ne_of_gt hdpos)
        have hEneg : E < 0 := div_neg_of_neg_of_pos (by linarith) hdpos
        have hEm1 : -1 ≤ E := by
          rw [hEdef, le_div_iff₀ hdpos]
          linarith [hmny', hzmx]
        clear_value E
        have hr : hue2rgb mn mx ((E + 6) / 6 + 1/3) = x := by
          rw [hue2rgb_wrap_pos (by linarith) (by linarith)]
          rw [hue2rgb_eval_q (by linarith) (by linarith)]
          exact hmxx
        have hg : hue2rgb mn mx ((E + 6) / 6) = y := by
          rw [hue2rgb_eval_p (by linarith) (by linarith)]
          exact hmny'
        have hb : hue2rgb mn mx ((E + 6) / 6 - 1/3) = z := by
          rw [hue2rgb_eval_down (by linarith) (by linarith)]
          linear_combination hmny' - hed
        rw [hr, hg, hb]
      · rw [if_neg hyz]
        have hzy : z ≤ y := not_lt.mp hyz
        have hzx : z ≤ x := by rw [← hmxx]; exact hzmx
        have hmnz' : mn = z := by
          rw [hmndef, min_eq_right hzy]
          exact min_eq_right hzx
        set E := (y - z) / (mx - mn) with hEdef
        have hed : E * (mx - mn) = y - z := div_mul_cancel₀ _ (ne_of_gt hdpos)
        have hE0 : 0 ≤ E := div_nonneg (by linarith) (le_of_lt hdpos)
        have hE1 : E ≤ 1 := by
          rw [hEdef, div_le_one hdpos]
          linarith [hymx, hmnz']
        clear_value E
        have hr : hue2rgb mn mx ((E + 0) / 6 + 1/3) = x := by
          rw [hue2rgb_eval_q (by linarith) (by linarith)]
          exact hmxx
        have hg : hue2rgb mn mx ((E + 0) / 6) = y := by
          rw [hue2rgb_eval_up (by linarith) (by linarith)]
          linear_combination hed + hmnz'
        have hb : hue2rgb mn mx ((E + 0) / 6 - 1/3) = z := by
          rw [hue2rgb_wrap_neg (by linarith) (by linarith)]
          rw [hue2rgb_eval_p (by linarith) (by linarith)]
          exact hmnz'
        rw [hr, hg, hb]
    · rw [if_neg hmxx]
      by_cases hmxy : mx = y
      · rw [if_pos hmxy]
        have hzy : z ≤ y := by rw [← hmxy]; exact hzmx
        have hminyz : min y z = z := min_eq_right hzy
        set E := (z - x) / (mx - mn) with hEdef
        have hed : E * (mx - mn) = z - x := div_mul_cancel₀ _ (ne_of_gt hdpos)
        have hE1 : E ≤ 1 := by
          rw [hEdef, div_le_one hdpos]
          linarith [hzmx, hmnx]
        have hEm1 : -1 ≤ E := by
          rw [hEdef, le_div_iff₀ hdpos]
          linarith [hxmx, hmnz]
        by_cases hzx : z < x
        · have hmnz' : mn = z := by
            rw [hmndef, hminyz]
            exact min_eq_right (le_of_lt hzx)
          have hEneg : E < 0 := div_neg_of_neg_of_pos (by linarith) hdpos
          clear_value E
          have hr : hue2rgb mn mx ((E + 2) / 6 + 1/3) = x := by
            rw [hue2rgb_eval_down (by linarith) (by linarith)]
            linear_combination hmnz' - hed
          have hg : hue2rgb mn mx ((E + 2) / 6) = y := by
            rw [hue2rgb_eval_q (by linarith) (by linarith)]
            exact hmxy
          have hb : hue2rgb mn mx ((E + 2) / 6 - 1/3) = z := by
            rw [hue2rgb_wrap_neg (by linarith) (by linarith)]
            rw [hue2rgb_eval_p (by linarith) (by linarith)]
            exact hmnz'
          rw [hr, hg, hb]
        · have hxz : x ≤ z := not_lt.mp hzx
          have hmnx' : mn = x := by
            rw [hmndef, hminyz]
            exact min_eq_left hxz
          have hE0 : 0 ≤ E := div_nonneg (by linarith) (le_of_lt hdpos)
          clear_value E
          have hr : hue2rgb mn mx ((E + 2) / 6 + 1/3) = x := by
            rw [hue2rgb_eval_p (by linarith) (by linarith)]
            exact hmnx'
          have hg : hue2rgb mn mx ((E + 2) / 6) = y := by
            rw [hue2rgb_eval_q (by linarith) (by linarith)]
            exact hmxy
          have hb : hue2rgb mn mx ((E + 2) / 6 - 1/3) = z := by
            rw [hue2rgb_eval_up (by linarith) (by linarith)]
            linear_combination hed + hmnx'
          rw [hr, hg, hb]
      · rw [if_neg hmxy]
        have hmxz : mx = z := by
          have hchoice : mx = x ∨ mx = y ∨ mx = z := by
            rw [hmxdef]
            rcases max_choice x (max y z) with h | h
            · exact Or.inl h
            · rcases max_choice y z with h2 | h2
              · exact Or.inr (Or.inl (h.trans h2))
              · exact Or.inr (Or.inr (h.trans h2))
          exact (hchoice.resolve_left hmxx).resolve_left hmxy
        have hxlt : x < mx := lt_of_le_of_ne hxmx (fun h => hmxx h.symm)
        have hylt : y < mx := lt_of_le_of_ne hymx (fun h => hmxy h.symm)
        have hyz' : y ≤ z := by rw [← hmxz]; exact hymx
        have hminyz : min y z = y := min_eq_left hyz'
        set E := (x - y) / (mx - mn) with hEdef
        have hed : E * (mx - mn) = x - y := div_mul_cancel₀ _ (ne_of_gt hdpos)
        have hE1 : E < 1 := by
          rw [hEdef, div_lt_one hdpos]
          linarith [hmny]
        have hEm1 : -1 < E := by
          rw [hEdef, lt_div_iff₀ hdpos]
          linarith [hmnx]
        by_cases hxy : x < y
        · have hmnx' : mn = x := by
            rw [hmndef, hminyz]
            exact min_eq_left (le_of_lt hxy)
          have hEneg : E < 0 := div_neg_of_neg_of_pos (by linarith) hdpos
          clear_value E
          have hr : hue2rgb mn mx ((E + 4) / 6 + 1/3) = x := by
            rw [hue2rgb_eval_p (by linarith) (by linarith)]
            exact hmnx'
          have hg : hue2rgb mn mx ((E + 4) / 6) = y := by
            rw [hue2rgb_eval_down (by linarith) (by linarith)]
            linear_combination hmnx' - hed
          have hb : hue2rgb mn mx ((E + 4) / 6 - 1/3) = z := by
            rw [hue2rgb_eval_q (by linarith) (by linarith)]
            exact hmxz
          rw [hr, hg, hb]
        · have hyx : y ≤ x := not_lt.mp hxy
          have hmny' : mn = y := by
            rw [hmndef, hminyz]
            exact min_eq_right hyx
          have hE0 : 0 ≤ E := div_nonneg (by linarith) (le_of_lt hdpos)
          clear_value E
          have hr : hue2rgb mn mx ((E + 4) / 6 + 1/3) = x := by
            by_cases hEpos : 0 < E
            · rw [hue2rgb_wrap_pos (by linarith) (by linarith)]
              rw [hue2rgb_eval_up (by linarith) (by linarith)]
              linear_combination hed + hmny'
            · have hE0' : E = 0 := le_antisymm (not_lt.mp hEpos) hE0
              have hxy' : x = y := by
                have h2 := hed
                rw [hE0'] at h2
                linarith
              rw [hue2rgb_eval_p (by linarith [hE0']) (by linarith [hE0'])]
              rw [hmny', hxy']
          have hg : hue2rgb mn mx ((E + 4) / 6) = y := by
            rw [hue2rgb_eval_p (by linarith) (by linarith)]
            exact hmny'
          have hb : hue2rgb mn mx ((E + 4) / 6 - 1/3) = z := by
            rw [hue2rgb_eval_q (by linarith) (by linarith)]
            exact hmxz
          rw [hr, hg, hb]

theorem jsRound_natCast (n : ℕ) : jsRound (n : ℚ) = n := by
  unfold jsRound
  rw [Int.floor_eq_iff]
  constructor
  · push_cast
    linarith
  · push_cast
    linarith

theorem roundtrip_rat (r g b : ℚ)
    (hr0 : 0 ≤ r) (hr1 : r ≤ 255) (hg0 : 0 ≤ g) (hg1 : g ≤ 255)
    (hb0 : 0 ≤ b) (hb1 : b ≤ 255) :
    hslToRgb (rgbToHsl r g b).h (rgbToHsl r g b).s (rgbToHsl r g b).l =
      ⟨jsRound r, jsRound g, jsRound b⟩ := by
  have hrfl : rgbToHsl r g b = hslOfNorm (r / 255) (g / 255) (b / 255) := rfl
  have h255 : (0:ℚ) < 255 := by norm_num
  rw [hrfl, roundtrip_norm (r / 255) (g / 255) (b / 255)
    (div_nonneg hr0 (le_of_lt h255)) ((div_le_one h255).mpr hr1)
    (div_nonneg hg0 (le_of_lt h255)) ((div_le_one h255).mpr hg1)
    (div_nonneg hb0 (le_of_lt h255)) ((div_le_one h255).mpr hb1)]
  congr 1 <;> rw [div_mul_cancel₀ _ (by norm_num : (255:ℚ) ≠ 0)]

theorem roundtrip_nat (r g b : ℕ) (hr : r ≤ 255) (hg : g ≤ 255) (hb : b ≤ 255) :
    hslToRgb (rgbToHsl r g b).h (rgbToHsl r g b).s (rgbToHsl r g b).l = ⟨r, g, b⟩ := by
  rw [roundtrip_rat (r : ℚ) g b (by positivity) (by exact_mod_cast hr)
    (by positivity) (by exact_mod_cast hg) (by positivity) (by exact_mod_cast hb)]
  rw [jsRound_natCast, jsRound_natCast, jsRound_natCast]

/-- C9: for every RGB triple with components in 0–255, converting it to HSL
with `rgbToHsl` and back with `hslToRgb` yields the original triple — in
fact exactly (integer inputs survive the final rounding unchanged, and the
conversion pair is an exact inverse in rational arithmetic), which implies
the round-trip law up to integer rounding tolerance. -/
theorem C9_hsl_roundtrip (r g b : ℕ) (hr : r ≤ 255) (hg : g ≤ 255) (hb : b ≤ 255) :
    hslToRgb (rgbToHsl r g b).h (rgbToHsl r g b).s (rgbToHsl r g b).l = ⟨r, g, b⟩ :=
  roundtrip_nat r g b hr hg hb

/-- Witness for C9 at the concrete triple (12, 200, 30). -/
theorem C9_hsl_roundtrip_witness :
    hslToRgb (rgbToHsl 12 200 30).h (rgbToHsl 12 200 30).s (rgbToHsl 12 200 30).l =
      ⟨12, 200, 30⟩ :=
  C9_hsl_roundtrip 12 200 30 (by norm_num) (by norm_num) (by norm_num)

/-- C5: the DOM Walker's `invertLightness` inverts the HSL lightness of a
background exactly when it exceeds 50% (replacing it by 100 − L while
passing hue and saturation through unchanged) and of a foreground/border
exactly when it is below 50%, leaving the color unchanged otherwise; in
particular a lightness-80% background becomes lightness 20%, and a
lightness-20% color is unchanged as a background but becomes 80% as a
foreground. -/
theorem C5_invert_lightness (r g b : ℕ) (hr : r ≤ 255) (hg : g ≤ 255) (hb : b ≤ 255) :
    (50 < (rgbToHsl r g b).l →
      invertLightness r g b true =
        hslToRgb (rgbToHsl r g b).h (rgbToHsl r g b).s (100 - (rgbToHsl r g b).l)) ∧
    ((rgbToHsl r g b).l ≤ 50 → invertLightness r g b true = ⟨r, g, b⟩) ∧
    ((rgbToHsl r g b).l < 50 →
      invertLightness r g b false =
        hslToRgb (rgbToHsl r g b).h (rgbToHsl r g b).s (100 - (rgbToHsl r g b).l)) ∧
    (50 ≤ (rgbToHsl r g b).l → invertLightness r g b false = ⟨r, g, b⟩) ∧
    invertLightness 204 204 204 true = ⟨51, 51, 51⟩ ∧
    (rgbToHsl 204 204 204).l = 80 ∧ (rgbToHsl 51 51 51).l = 20 ∧
    invertLightness 51 51 51 true = ⟨51, 51, 51⟩ ∧
    invertLightness 51 51 51 false = ⟨204, 204, 204⟩ := by
  refine ⟨?_, ?_, ?_, ?_, ?_, ?_, ?_, ?_, ?_⟩
  · intro h
    simp only [invertLightness]
    rw [if_pos (And.intro trivial h)]
  · intro h
    simp only [invertLightness]
    rw [if_neg (fun hc => absurd hc.2 (not_lt.mpr h)),
        if_neg (fun hc => Bool.noConfusion hc.1)]
    exact roundtrip_nat r g b hr hg hb
  · intro h
    simp only [invertLightness]
    rw [if_neg (fun hc => Bool.noConfusion hc.1), if_pos (And.intro trivial h)]
  · intro h
    simp only [invertLightness]
    rw [if_neg (fun hc => Bool.noConfusion hc.1),
        if_neg (fun hc => absurd hc.2 (not_lt.mpr h))]
    exact roundtrip_nat r g b hr hg hb
  · norm_num [invertLightness, rgbToHsl, hslToRgb, jsRound]
  · norm_num [rgbToHsl]
  · norm_num [rgbToHsl]
  · norm_num [invertLightness, rgbToHsl, hslToRgb, jsRound]
  · norm_num [invertLightness, rgbToHsl, hslToRgb, jsRound]

/-- Witness for C5 at the concrete gray (204, 204, 204) of lightness 80%:
as a background it is inverted to the lightness-20% form. -/
theorem C5_invert_lightness_witness :
    invertLightness 204 204 204 true =
      hslToRgb (rgbToHsl 204 204 204).h (rgbToHsl 204 204 204).s
        (100 - (rgbToHsl 204 204 204).l) :=
  (C5_invert_lightness 204 204 204 (by norm_num) (by norm_num) (by norm_num)).1
    (by norm_num [rgbToHsl])

/-! ## Exact bounds on the real power `x ^ 2.4`

The WCAG exponent 2.4 equals 12/5, so `q ≤ x ^ 2.4` (respectively
`x ^ 2.4 ≤ q`) for nonnegative reals reduces to the exact rational
comparison `q ^ 5 ≤ x ^ 12` (respectively `x ^ 12 ≤ q ^ 5`). -/

theorem rpow24_pow5 {x : ℝ} (hx : 0 ≤ x) : (x ^ (2.4:ℝ)) ^ (5:ℕ) = x ^ (12:ℕ) := by
  rw [← Real.rpow_natCast (x ^ (2.4:ℝ)) 5, ← Real.rpow_mul hx, ← Real.rpow_natCast x 12]
  norm_num

theorem rpow24_le {x q : ℝ} (hx : 0 ≤ x) (hq : 0 ≤ q)
    (h : x ^ (12:ℕ) ≤ q ^ (5:ℕ)) : x ^ (2.4:ℝ) ≤ q := by
  refine le_of_pow_le_pow_left (by norm_num : (5:ℕ) ≠ 0) hq ?_
  rw [rpow24_pow5 hx]
  exact h

theorem le_rpow24 {x q : ℝ} (hx : 0 ≤ x) (h : q ^ (5:ℕ) ≤ x ^ (12:ℕ)) :
    q ≤ x ^ (2.4:ℝ) := by
  refine le_of_pow_le_pow_left (by norm_num : (5:ℕ) ≠ 0) (Real.rpow_nonneg hx _) ?_
  rw [rpow24_pow5 hx]
  exact h

theorem srgbLin_nonneg (c : ℚ) (hc : 0 ≤ c) : 0 ≤ srgbLin c := by
  have hc' : (0:ℝ) ≤ (c:ℝ) := by exact_mod_cast hc
  unfold srgbLin
  split_ifs
  · exact div_nonneg (div_nonneg hc' (by norm_num)) (by norm_num)
  · exact Real.rpow_nonneg
      (div_nonneg (by linarith [div_nonneg hc' (by norm_num : (0:ℝ) ≤ 255)]) (by norm_num)) _

theorem srgbLin_le_of (c : ℚ) (hc : 0 ≤ c) (hcond : ¬ c / 255 ≤ 3928/100000) (q : ℝ)
    (hq : 0 ≤ q) (h : (((c:ℝ) / 255 + 0.055) / 1.055) ^ (12:ℕ) ≤ q ^ (5:ℕ)) :
    srgbLin c ≤ q := by
  have hc' : (0:ℝ) ≤ (c:ℝ) := by exact_mod_cast hc
  unfold srgbLin
  rw [if_neg hcond]
  exact rpow24_le
    (div_nonneg (by linarith [div_nonneg hc' (by norm_num : (0:ℝ) ≤ 255)]) (by norm_num)) hq h

theorem le_srgbLin_of (c : ℚ) (hc : 0 ≤ c) (hcond : ¬ c / 255 ≤ 3928/100000) (q : ℝ)
    (h : q ^ (5:ℕ) ≤ (((c:ℝ) / 255 + 0.055) / 1.055) ^ (12:ℕ)) :
    q ≤ srgbLin c := by
  have hc' : (0:ℝ) ≤ (c:ℝ) := by exact_mod_cast hc
  unfold srgbLin
  rw [if_neg hcond]
  exact le_rpow24
    (div_nonneg (by linarith [div_nonneg hc' (by norm_num : (0:ℝ) ≤ 255)]) (by norm_num)) h

theorem lum_gray (v : ℕ) : lumOf ⟨v, v, v⟩ = srgbLin v := by
  unfold lumOf relLuminance
  ring

/-- Any luminance at most 0.026 against any luminance at least 0.43 meets the
4.5:1 WCAG floor. -/
theorem contrast_ge_of_bounds {lb lf : ℝ} (hb0 : 0 ≤ lb) (hble : lb ≤ 0.026)
    (hfge : 0.43 ≤ lf) : 4.5 ≤ getContrastRatio lb lf := by
  unfold getContrastRatio
  rw [max_eq_right (by linarith), min_eq_left (by linarith)]
  rw [le_div_iff₀ (by linarith)]
  linarith

/-- C2: for every (background, foreground) pair the Chroma-Semantic engine
assigns (any role, any depth, any element whose computed color is non-empty
— computed styles are never empty strings in a rendered document), the pair
parses and its WCAG contrast ratio is at least 4.5 after the engine's
contrast adjustment (in fact the adjustment never fires for engine-assigned
colors), which entails the claimed "≥ 4.5 or lightness at the 95% ceiling"
disjunction. -/
theorem C2_chroma_contrast_floor (role computedColor priorInline : String) (depth : ℕ)
    (hcc : computedColor ≠ "") :
    ∃ bgc fgc : RGBn,
      chromaParseColor (semanticBgHex depth) = some bgc ∧
      chromaParseColor (applySemanticStyleColor role computedColor priorInline depth) =
        some fgc ∧
      (4.5 ≤ getContrastRatio (lumOf bgc) (lumOf fgc) ∨
        (rgbToLCH fgc.r fgc.g fgc.b).l = 95) := by
  have hfg0 : assignedStyleColor role computedColor priorInline = textColorHeading ∨
      assignedStyleColor role computedColor priorInline = textColorLink ∨
      assignedStyleColor role computedColor priorInline = textColorBody := by
    unfold assignedStyleColor
    by_cases h1 : role = "heading"
    · rw [if_pos h1]
      exact Or.inl rfl
    · rw [if_neg h1]
      by_cases h2 : role = "link"
      · rw [if_pos h2]
        exact Or.inr (Or.inl rfl)
      · rw [if_neg h2, if_pos hcc]
        exact Or.inr (Or.inr rfl)
  have hbgpack : ∃ bgc : RGBn, chromaParseColor (semanticBgHex depth) = some bgc ∧
      0 ≤ lumOf bgc ∧ lumOf bgc ≤ 0.026 := by
    have hk : paletteIndexOf depth ≤ 4 := min_le_right _ _
    have h5 : paletteIndexOf depth = 0 ∨ paletteIndexOf depth = 1 ∨
        paletteIndexOf depth = 2 ∨ paletteIndexOf depth = 3 ∨
        paletteIndexOf depth = 4 := by omega
    rcases h5 with h | h | h | h | h
    · refine ⟨⟨18, 18, 18⟩, by unfold semanticBgHex; rw [h]; decide, ?_, ?_⟩
      · rw [lum_gray]; exact srgbLin_nonneg _ (by norm_num)
      · rw [lum_gray]; exact srgbLin_le_of _ (by norm_num) (by norm_num) _ (by norm_num) (by norm_num)
    · refine ⟨⟨26, 26, 26⟩, by unfold semanticBgHex; rw [h]; decide, ?_, ?_⟩
      · rw [lum_gray]; exact srgbLin_nonneg _ (by norm_num)
      · rw [lum_gray]; exact srgbLin_le_of _ (by norm_num) (by norm_num) _ (by norm_num) (by norm_num)
    · refine ⟨⟨34, 34, 34⟩, by unfold semanticBgHex; rw [h]; decide, ?_, ?_⟩
      · rw [lum_gray]; exact srgbLin_nonneg _ (by norm_num)
      · rw [lum_gray]; exact srgbLin_le_of _ (by norm_num) (by norm_num) _ (by norm_num) (by norm_num)
    · refine ⟨⟨42, 42, 42⟩, by unfold semanticBgHex; rw [h]; decide, ?_, ?_⟩
      · rw [lum_gray]; exact srgbLin_nonneg _ (by norm_num)
      · rw [lum_gray]; exact srgbLin_le_of _ (by norm_num) (by norm_num) _ (by norm_num) (by norm_num)
    · refine ⟨⟨44, 44, 44⟩, by unfold semanticBgHex; rw [h]; decide, ?_, ?_⟩
      · rw [lum_gray]; exact srgbLin_nonneg _ (by norm_num)
      · rw [lum_gray]; exact srgbLin_le_of _ (by norm_num) (by norm_num) _ (by norm_num) (by norm_num)
  obtain ⟨bgc, hbg, hb0, hble⟩ := hbgpack
  have hfgpack : ∃ fgc0 : RGBn,
      chromaParseColor (assignedStyleColor role computedColor priorInline) = some fgc0 ∧
      0.43 ≤ lumOf fgc0 := by
    rcases hfg0 with h0 | h0 | h0
    · refine ⟨⟨245, 245, 245⟩, by rw [h0]; decide, ?_⟩
      rw [lum_gray]
      exact le_srgbLin_of _ (by norm_num) (by norm_num) _ (by norm_num)
    · refine ⟨⟨108, 182, 255⟩, by rw [h0]; decide, ?_⟩
      have b1 : (0.14:ℝ) ≤ srgbLin 108 :=
        le_srgbLin_of _ (by norm_num) (by norm_num) _ (by norm_num)
      have b2 : (0.46:ℝ) ≤ srgbLin 182 :=
        le_srgbLin_of _ (by norm_num) (by norm_num) _ (by norm_num)
      have b3 : srgbLin 255 = 1 := by
        unfold srgbLin
        rw [if_neg (by norm_num)]
        rw [show (((255:ℚ):ℝ) / 255 + 0.055) / 1.055 = 1 from by norm_num, Real.one_rpow]
      simp only [lumOf, relLuminance]
      push_cast
      linarith
    · refine ⟨⟨224, 224, 224⟩, by rw [h0]; decide, ?_⟩
      rw [lum_gray]
      exact le_srgbLin_of _ (by norm_num) (by norm_num) _ (by norm_num)
  obtain ⟨fgc0, hp0, hlb⟩ := hfgpack
  have hcon : 4.5 ≤ getContrastRatio (lumOf bgc) (lumOf fgc0) :=
    contrast_ge_of_bounds hb0 hble hlb
  have hfg0ne : assignedStyleColor role computedColor priorInline ≠ "" := by
    rcases hfg0 with h0 | h0 | h0 <;> rw [h0] <;> decide
  have hno : applySemanticStyleColor role computedColor priorInline depth =
      assignedStyleColor role computedColor priorInline := by
    simp only [applySemanticStyleColor]
    rw [if_neg hfg0ne, hbg, hp0]
    dsimp only
    rw [if_neg (not_lt.mpr hcon)]
  exact ⟨bgc, fgc0, hbg, by rw [hno]; exact hp0, Or.inl hcon⟩

/-- Witness for C2 for a generic-role element of depth 0 with a black
computed color. -/
theorem C2_chroma_contrast_floor_witness :
    ∃ bgc fgc : RGBn,
      chromaParseColor (semanticBgHex 0) = some bgc ∧
      chromaParseColor (applySemanticStyleColor "generic" "rgb(0, 0, 0)" "" 0) = some fgc ∧
      (4.5 ≤ getContrastRatio (lumOf bgc) (lumOf fgc) ∨
        (rgbToLCH fgc.r fgc.g fgc.b).l = 95) :=
  C2_chroma_contrast_floor "generic" "rgb(0, 0, 0)" "" 0 (by decide)

/-! ## Dark-theme detection claims -/

theorem avg_two_samples (d : DetectDoc) (c : RGBn)
    (hb : d.hasBody = true) (hh : d.hasHtml = true) (hsel : d.selectorBgs = [])
    (h1 : parseColor d.canvasNorm d.bodyBg = some c)
    (h2 : parseColor d.canvasNorm d.htmlBg = some c) :
    getAverageBackgroundLuminance d = lumOf c := by
  unfold getAverageBackgroundLuminance
  rw [if_neg (by rw [hb, hh]; decide)]
  have hs : sampleColors d = [c, c] := by
    unfold sampleColors
    rw [h1, h2, hsel]
    rfl
  rw [hs]
  simp only [List.map_cons, List.map_nil]
  rw [if_pos (by simp)]
  simp only [List.sum_cons, List.sum_nil, List.length_cons, List.length_nil]
  push_cast
  ring

/-- C1 as stated is false on the code: the gray document has no explicit
markers and a mean sampled background luminance strictly above 0.2, yet
`isAlreadyDarkTheme` classifies it dark (the source threshold is 0.3). -/
theorem C1_threshold_counterexample :
    hasExplicitDarkThemeMarkers grayDoc = false ∧
    (0.2:ℝ) < getAverageBackgroundLuminance grayDoc ∧
    isAlreadyDarkTheme grayDoc := by
  have havg : getAverageBackgroundLuminance grayDoc = srgbLin ((137:ℕ):ℚ) := by
    rw [avg_two_samples grayDoc ⟨137, 137, 137⟩ rfl rfl rfl (by decide) (by decide),
        lum_gray]
  have hlow : (0.21:ℝ) ≤ srgbLin ((137:ℕ):ℚ) :=
    le_srgbLin_of _ (by norm_num) (by norm_num) _ (by norm_num)
  have hhigh : srgbLin ((137:ℕ):ℚ) ≤ (0.29:ℝ) :=
    srgbLin_le_of _ (by norm_num) (by norm_num) _ (by norm_num) (by norm_num)
  refine ⟨by decide, ?_, ?_⟩
  · rw [havg]
    linarith
  · refine Or.inr (Or.inl ?_)
    rw [havg]
    have hth : ((DARK_THRESHOLD:ℚ):ℝ) = 0.3 := by norm_num [DARK_THRESHOLD]
    rw [hth]
    linarith

/-- C1 (amended to the source's behaviour): for a document with no explicit
dark markers, `isAlreadyDarkTheme` classifies it dark whenever the mean
sampled background luminance is below the 0.3 threshold, and classifies it
light whenever the mean is at least 0.3 and the prefers-dark media
condition does not match. -/
theorem C1_luminance_threshold (d : DetectDoc)
    (hm : hasExplicitDarkThemeMarkers d = false) :
    (getAverageBackgroundLuminance d < ((DARK_THRESHOLD:ℚ):ℝ) → isAlreadyDarkTheme d) ∧
    (((DARK_THRESHOLD:ℚ):ℝ) ≤ getAverageBackgroundLuminance d →
      siteDeclaresColorScheme d = false → ¬ isAlreadyDarkTheme d) := by
  constructor
  · intro h
    exact Or.inr (Or.inl h)
  · intro h hdecl hdark
    rcases hdark with h1 | h1 | h1
    · rw [hm] at h1
      exact Bool.noConfusion h1
    · linarith
    · rw [hdecl] at h1
      exact Bool.noConfusion h1

/-- Witness for C1 (amended) at the black document: no markers, mean
luminance 0 below the threshold, classified dark. -/
theorem C1_luminance_threshold_witness : isAlreadyDarkTheme blackDoc := by
  apply (C1_luminance_threshold blackDoc (by decide)).1
  have havg : getAverageBackgroundLuminance blackDoc = srgbLin ((0:ℕ):ℚ) := by
    rw [avg_two_samples blackDoc ⟨0, 0, 0⟩ rfl rfl rfl (by decide) (by decide), lum_gray]
  have h0 : srgbLin ((0:ℕ):ℚ) = 0 := by
    unfold srgbLin
    rw [if_pos (by norm_num)]
    norm_num
  rw [havg, h0]
  norm_num [DARK_THRESHOLD]

/-- C7: detection is first-match-wins: explicit markers classify the
document dark immediately (overriding any sampled luminance); with no
marker the document is dark exactly when the mean luminance is below the
threshold or the prefers-dark media condition matches, and light otherwise;
in particular a dark-matching root class alone forces the dark
classification. -/
theorem C7_detection_order (d : DetectDoc) :
    (hasExplicitDarkThemeMarkers d = true → isAlreadyDarkTheme d) ∧
    (hasExplicitDarkThemeMarkers d = false →
      (isAlreadyDarkTheme d ↔
        getAverageBackgroundLuminance d < ((DARK_THRESHOLD:ℚ):ℝ) ∨
          siteDeclaresColorScheme d = true)) ∧
    (d.hasHtml = true → d.hasBody = true → darkClassTest d.htmlClassName = true →
      isAlreadyDarkTheme d) := by
  refine ⟨fun h => Or.inl h, fun hm => ?_, fun hh hb hc => ?_⟩
  · constructor
    · intro hd
      rcases hd with h1 | h1 | h1
      · rw [hm] at h1
        exact Bool.noConfusion h1
      · exact Or.inl h1
      · exact Or.inr h1
    · intro hd
      rcases hd with h1 | h1
      · exact Or.inr (Or.inl h1)
      · exact Or.inr (Or.inr h1)
  · refine Or.inl ?_
    unfold hasExplicitDarkThemeMarkers
    rw [if_neg (by rw [hh, hb]; decide)]
    rw [hc]
    simp

/-- Witness for C7 at the document carrying a `dark-mode` root class over
white backgrounds: classified dark. -/
theorem C7_detection_order_witness : isAlreadyDarkTheme darkClassDoc :=
  (C7_detection_order darkClassDoc).1 (by decide)

/-- C10: when the body or root element is absent, or no sampled background
color parses, `getAverageBackgroundLuminance` returns exactly 1, and the
document can then only be classified dark through explicit markers or the
prefers-dark media condition — never through the luminance check. -/
theorem C10_unparseable_defaults_light (d : DetectDoc)
    (h : d.hasBody = false ∨ d.hasHtml = false ∨ sampleColors d = []) :
    getAverageBackgroundLuminance d = 1 ∧
    (isAlreadyDarkTheme d ↔
      hasExplicitDarkThemeMarkers d = true ∨ siteDeclaresColorScheme d = true) := by
  have havg : getAverageBackgroundLuminance d = 1 := by
    unfold getAverageBackgroundLuminance
    rcases h with h | h | h
    · rw [if_pos (by rw [h]; simp)]
    · rw [if_pos (by rw [h]; simp)]
    · by_cases hb : (!d.hasBody || !d.hasHtml) = true
      · rw [if_pos hb]
      · rw [if_neg hb, h]
        simp
  refine ⟨havg, ?_, ?_⟩
  · intro hd
    rcases hd with h1 | h1 | h1
    · exact Or.inl h1
    · rw [havg] at h1
      norm_num [DARK_THRESHOLD] at h1
    · exact Or.inr h1
  · intro hd
    rcases hd with h1 | h1
    · exact Or.inl h1
    · exact Or.inr (Or.inr h1)

/-- Witness for C10 at the document with no body element. -/
theorem C10_unparseable_defaults_light_witness :
    getAverageBackgroundLuminance noBodyDoc = 1 ∧
    (isAlreadyDarkTheme noBodyDoc ↔
      hasExplicitDarkThemeMarkers noBodyDoc = true ∨
        siteDeclaresColorScheme noBodyDoc = true) :=
  C10_unparseable_defaults_light noBodyDoc (Or.inl rfl)

/-! ## Contrast optimizer claims -/

theorem srgbLin_255 : srgbLin ((255:ℕ):ℚ) = 1 := by
  unfold srgbLin
  rw [if_neg (by norm_num)]
  rw [show ((((255:ℕ):ℚ):ℝ) / 255 + 0.055) / 1.055 = 1 from by norm_num, Real.one_rpow]

theorem mid_ratios :
    analyzeRatios canvasId [midSample] =
      [workerContrast ⟨255, 255, 255⟩ ⟨110, 110, 110⟩] := by
  have hfg : workerParseColor canvasId "rgb(255, 255, 255)" = some ⟨255, 255, 255⟩ := by
    decide
  have hbg : workerParseColor canvasId "rgb(110, 110, 110)" = some ⟨110, 110, 110⟩ := by
    decide
  simp [analyzeRatios, midSample, hfg, hbg]

theorem mid_median :
    medianRatio (analyzeRatios canvasId [midSample]) =
      workerContrast ⟨255, 255, 255⟩ ⟨110, 110, 110⟩ := by
  rw [mid_ratios]
  unfold medianRatio
  simp [List.insertionSort, List.orderedInsert]

theorem mid_gray_bounds :
    (0.07:ℝ) ≤ srgbLin (110:ℚ) ∧ srgbLin (110:ℚ) ≤ 0.17 :=
  ⟨le_srgbLin_of _ (by norm_num) (by norm_num) _ (by norm_num),
   srgbLin_le_of _ (by norm_num) (by norm_num) _ (by norm_num) (by norm_num)⟩

theorem mid_contrast_bounds :
    4.5 ≤ workerContrast ⟨255, 255, 255⟩ ⟨110, 110, 110⟩ ∧
    workerContrast ⟨255, 255, 255⟩ ⟨110, 110, 110⟩ ≤ 9 := by
  obtain ⟨hg0, hg1⟩ := mid_gray_bounds
  have hgnn : 0 ≤ srgbLin (110:ℚ) := srgbLin_nonneg _ (by norm_num)
  have hwhite : lumOf ⟨255, 255, 255⟩ = 1 := by rw [lum_gray, srgbLin_255]
  have hgray : lumOf ⟨110, 110, 110⟩ = srgbLin (110:ℚ) := by
    rw [lum_gray]
    norm_num
  have hle : srgbLin (110:ℚ) ≤ 1 := by linarith
  unfold workerContrast getContrastRatio
  rw [hwhite, hgray]
  rw [max_eq_left hle, min_eq_right hle]
  constructor
  · rw [le_div_iff₀ (by linarith)]
    linarith
  · rw [div_le_iff₀ (by linarith)]
    linarith

/-- C6 is false as stated: on this parseable single-sample batch the median
contrast lies in the "otherwise" band between 4.5 and 9, where the claim
says the worker leaves no suggestion, yet the worker posts the base
suggestion `{ suggestedContrast := 110 }` (the source's `suggested ?? 110`
default). -/
theorem C6_mid_band_counterexample :
    4.5 ≤ medianRatio (analyzeRatios canvasId [midSample]) ∧
    medianRatio (analyzeRatios canvasId [midSample]) ≤ 9 ∧
    workerOnMessage canvasId "analyze" [midSample] = some ⟨110⟩ := by
  have h45 : 4.5 ≤ medianRatio (analyzeRatios canvasId [midSample]) := by
    rw [mid_median]
    exact mid_contrast_bounds.1
  have h9 : medianRatio (analyzeRatios canvasId [midSample]) ≤ 9 := by
    rw [mid_median]
    exact mid_contrast_bounds.2
  refine ⟨h45, h9, ?_⟩
  unfold workerOnMessage
  rw [if_neg (by simp), if_neg (by rw [mid_ratios]; simp)]
  dsimp only
  rw [if_neg (not_lt.mpr h45), if_neg (not_lt.mpr h9)]
  rfl

/-- C6 (amended to the source's behaviour): for every non-empty batch of
parseable sample pairs the worker takes the median per-pair WCAG contrast
ratio and posts: `round(110 + 10 per 0.5 of deficit below 4.5)` when the
median is below 4.5; the base suggestion 110 (not "no suggestion") when the
median is between 4.5 and 9; and 100 when the median exceeds 9; the
caller's feedback clamp keeps any suggestion within 50–200. -/
theorem C6_optimizer_suggestion (canvasNorm : String → Option String)
    (samples : List OptimizerSample) (hne : samples ≠ [])
    (hparse : ∀ s ∈ samples, (workerParseColor canvasNorm s.fg).isSome ∧
      (workerParseColor canvasNorm s.bg).isSome) :
    (medianRatio (analyzeRatios canvasNorm samples) < 4.5 →
      workerOnMessage canvasNorm "analyze" samples =
        some ⟨jsRoundR (110 +
          ((4.5 - medianRatio (analyzeRatios canvasNorm samples)) / 0.5) * 10)⟩) ∧
    (4.5 ≤ medianRatio (analyzeRatios canvasNorm samples) →
      medianRatio (analyzeRatios canvasNorm samples) ≤ 9 →
      workerOnMessage canvasNorm "analyze" samples = some ⟨110⟩) ∧
    (9 < medianRatio (analyzeRatios canvasNorm samples) →
      workerOnMessage canvasNorm "analyze" samples = some ⟨100⟩) ∧
    (∀ x : ℤ, 50 ≤ clampContrast x ∧ clampContrast x ≤ 200) := by
  have hratne : analyzeRatios canvasNorm samples ≠ [] := by
    cases samples with
    | nil => exact absurd rfl hne
    | cons s rest =>
      obtain ⟨h1, h2⟩ := hparse s (List.mem_cons_self _ _)
      obtain ⟨fg, hfg⟩ := Option.isSome_iff_exists.mp h1
      obtain ⟨bg, hbg⟩ := Option.isSome_iff_exists.mp h2
      simp [analyzeRatios, List.filterMap_cons, hfg, hbg]
  refine ⟨?_, ?_, ?_, fun x => ⟨le_min (by norm_num) (le_max_left _ _), min_le_left _ _⟩⟩
  · intro h
    unfold workerOnMessage
    rw [if_neg (by simp [hne]), if_neg hratne]
    dsimp only
    rw [if_pos h]
    rfl
  · intro h h2
    unfold workerOnMessage
    rw [if_neg (by simp [hne]), if_neg hratne]
    dsimp only
    rw [if_neg (not_lt.mpr h), if_neg (not_lt.mpr h2)]
    rfl
  · intro h
    unfold workerOnMessage
    rw [if_neg (by simp [hne]), if_neg hratne]
    dsimp only
    rw [if_neg (not_lt.mpr (by linarith : (4.5:ℝ) ≤ medianRatio (analyzeRatios canvasNorm samples))),
        if_pos h]
    rfl

/-- Witness for C6 (amended) on the parseable single-sample batch: the
mid-band branch posts the base 110 suggestion. -/
theorem C6_optimizer_suggestion_witness :
    workerOnMessage canvasId "analyze" [midSample] = some ⟨110⟩ := by
  have h45 : 4.5 ≤ medianRatio (analyzeRatios canvasId [midSample]) := by
    rw [mid_median]
    exact mid_contrast_bounds.1
  have h9 : medianRatio (analyzeRatios canvasId [midSample]) ≤ 9 := by
    rw [mid_median]
    exact mid_contrast_bounds.2
  exact (C6_optimizer_suggestion canvasId [midSample] (by simp)
    (fun s hs => by
      rw [List.mem_singleton.mp hs]
      exact ⟨by decide, by decide⟩)).2.1 h45 h9

/-! ## Mode controller and strategy lifecycle claims -/

theorem findTag_cons (i : String) (t : String × String) (l : List (String × String)) :
    findTag i (t :: l) = if t.1 == i then some t.2 else findTag i l := rfl

theorem findTag_none_cons {i : String} {t : String × String} {l : List (String × String)}
    (h : findTag i (t :: l) = none) : (t.1 == i) = false ∧ findTag i l = none := by
  by_cases hb : (t.1 == i) = true
  · rw [findTag_cons, if_pos hb] at h
    exact absurd h (by simp)
  · rw [findTag_cons, if_neg hb] at h
    exact ⟨by simpa using hb, h⟩

theorem any_false_findTag_none {i : String} {ts : List (String × String)}
    (h : (ts.any fun t => t.1 == i) = false) : findTag i ts = none := by
  induction ts with
  | nil => rfl
  | cons t rest ih =>
    rw [List.any_cons, Bool.or_eq_false_iff] at h
    rw [findTag_cons, if_neg (by simp [h.1])]
    exact ih h.2

theorem findTag_append_self {i : String} (c : String) {ts : List (String × String)}
    (h : findTag i ts = none) : findTag i (ts ++ [(i, c)]) = some c := by
  induction ts with
  | nil => rw [List.nil_append, findTag_cons, if_pos (by simp)]
  | cons t rest ih =>
    obtain ⟨hti, hrest⟩ := findTag_none_cons h
    rw [List.cons_append, findTag_cons, if_neg (by simp [hti])]
    exact ih hrest

theorem findTag_setTagContent_self (i c : String) (ts : List (String × String)) :
    findTag i (setTagContent i c ts) = some c := by
  unfold setTagContent
  split_ifs with hany
  · induction ts with
    | nil => exact absurd hany (by simp)
    | cons t rest ih =>
      rw [List.map_cons]
      by_cases hb : (t.1 == i) = true
      · rw [if_pos hb, findTag_cons, if_pos (by simp)]
      · rw [if_neg hb, findTag_cons, if_neg hb]
        have hb' : (t.1 == i) = false := by simpa using hb
        rw [List.any_cons, hb', Bool.false_or] at hany
        exact ih hany
  · exact findTag_append_self _
      (any_false_findTag_none (Bool.eq_false_iff.mpr hany))

theorem removeTagById_idem (i : String) (ts : List (String × String)) :
    removeTagById i (removeTagById i ts) = removeTagById i ts := by
  induction ts with
  | nil => rfl
  | cons t rest ih =>
    unfold removeTagById at ih ⊢
    rw [List.filter_cons]
    cases hb : (!(t.1 == i)) with
    | false => simpa using ih
    | true =>
      rw [if_pos rfl, List.filter_cons, hb, if_pos rfl]
      rw [show List.filter (fun t => !(t.1 == i)) rest =
        removeTagById i rest from rfl] at ih ⊢
      rw [ih]

theorem map_if_mem_nil (g : Elem → Elem) (l : List Elem) :
    (l.map fun e => if e.id ∈ ([] : List ℕ) then g e else e) = l := by
  induction l with
  | nil => rfl
  | cons e rest ih => simp [ih]

/-- C8: each strategy's remove/reset operation is a total function on the
modelled document state (it cannot throw) and is idempotent from any state,
including states where the strategy's artifacts are absent or `apply` never
ran: a second consecutive call leaves the state unchanged.
(`resetChromaSemantic` is modelled from the spec, as its source is missing
from the snapshot.) -/
theorem C8_resets_idempotent (st : PageState) :
    removePhotonInverter (removePhotonInverter st) = removePhotonInverter st ∧
    resetDomWalker (resetDomWalker st) = resetDomWalker st ∧
    resetChromaSemantic (resetChromaSemantic st) = resetChromaSemantic st := by
  refine ⟨?_, ?_, ?_⟩
  · unfold removePhotonInverter
    dsimp only
    rw [removeTagById_idem]
  · unfold resetDomWalker
    dsimp only
    rw [map_if_mem_nil]
  · unfold resetChromaSemantic
    dsimp only
    rw [map_if_mem_nil]

/-- C4 is false as stated: `generatePhotonInverterCSS` produces the same CSS
for settings records that differ in all five numeric modifiers, and its
output contains no brightness component at all — nothing in the block is
derived from the modifiers. -/
theorem C4_modifiers_unused_counterexample :
    generatePhotonInverterCSS
        { DEFAULTS with
            brightness := 50, contrast := 50, sepia := 100,
            grayscale := 100, blueShift := 100 } =
      generatePhotonInverterCSS DEFAULTS ∧
    hasSubstr (generatePhotonInverterCSS DEFAULTS) "brightness(" = false :=
  ⟨rfl, by decide⟩

/-- C4 (amended): for every settings record the Photon Inverter's single
marked style block is the same fixed CSS — a full-page `invert(100%)` filter
with the off-white `#fefefe` base background and a raster re-inversion rule;
the five numeric modifiers are not used.  When a head element is present,
`applyPhotonInverter` installs exactly this CSS under the
`dark-theme-snippet` marker. -/
theorem C4_photon_css_fixed (s : Settings) :
    generatePhotonInverterCSS s = generatePhotonInverterCSS DEFAULTS ∧
    hasSubstr (generatePhotonInverterCSS s) "filter: invert(100%)" = true ∧
    hasSubstr (generatePhotonInverterCSS s) "background-color: #fefefe" = true ∧
    (∀ st : PageState, st.hasHead = true →
      findTag DARK_THEME_SNIPPET_ID (applyPhotonInverter s st).tags =
        some (generatePhotonInverterCSS s)) := by
  refine ⟨rfl,
    (by decide :
      hasSubstr (generatePhotonInverterCSS DEFAULTS) "filter: invert(100%)" = true),
    (by decide :
      hasSubstr (generatePhotonInverterCSS DEFAULTS) "background-color: #fefefe" = true),
    fun st hh => ?_⟩
  unfold applyPhotonInverter
  split_ifs with hany
  · dsimp only
    exact findTag_setTagContent_self _ _ _
  · dsimp only
    exact findTag_append_self _
      (any_false_findTag_none (Bool.eq_false_iff.mpr hany))

/-- Witness for C4 (amended) at the default settings on the fresh page. -/
theorem C4_photon_css_fixed_witness :
    findTag DARK_THEME_SNIPPET_ID (applyPhotonInverter DEFAULTS emptyPage).tags =
      some (generatePhotonInverterCSS DEFAULTS) :=
  (C4_photon_css_fixed DEFAULTS).2.2.2 emptyPage rfl

end UltraDark
